import Mathlib

/-!
Verification of the Link Collection Manager of `link_manager.py`.

The core logic of the application is embedded shallowly:

* Python string primitives used by the source (`strip`, `split`, `lower`,
  `startswith`, `endswith`, substring containment) are modelled on `List Char`
  by structural recursion, so that concrete runs reduce in the kernel.
* `extract_url_from_shortcut` is split into its pure parsing part (over the
  file's contents) and the wrapper that accounts for the read failing with an
  exception (one error dialog, result `None`).
* `import_links`, `filter_links`, `load_config` and `save_config` become pure
  functions over an explicit application state; file-system and dialog inputs
  (the chosen folder, the directory listing, the backing configuration file)
  are passed as arguments.
-/

namespace LinkManager

/-- Characters removed by Python `str.strip()` (ASCII whitespace: space, tab,
newline, carriage return, vertical tab, form feed). -/
def pyIsSpace (c : Char) : Bool :=
  c = ' ' || c = '\t' || c = '\n' || c = '\r' || c = '\x0b' || c = '\x0c'

/-- Python `s.strip()`: drop leading and trailing whitespace. -/
def pyStrip (s : String) : String :=
  String.mk (((s.data.dropWhile pyIsSpace).reverse.dropWhile pyIsSpace).reverse)

/-- Python `s.split(sep)` for a one-character separator, on character lists:
split at every occurrence, keeping empty segments, so the result is nonempty
and has one more segment than there are separators. -/
def splitOnChar (sep : Char) : List Char → List (List Char)
  | [] => [[]]
  | c :: cs =>
    if c = sep then [] :: splitOnChar sep cs
    else
      match splitOnChar sep cs with
      | [] => [[c]]
      | seg :: segs => (c :: seg) :: segs

/-- Python `s.split(sep)` for a one-character separator. -/
def pySplit (sep : Char) (s : String) : List String :=
  (splitOnChar sep s.data).map String.mk

/-- The lines of a text file as iterated by `for line in file`, represented
without their terminators: `startswith('URL=')` and `strip()` in the source
are unaffected by the trailing newline, and the extra empty final segment
produced for contents ending in a newline never starts with `URL=`. -/
def pyFileLines (s : String) : List String := pySplit '\n' s

/-- Python `s.startswith(p)`. -/
def pyStartsWith (p s : String) : Bool := p.data.isPrefixOf s.data

/-- Python `s.endswith(p)`. -/
def pyEndsWith (p s : String) : Bool := p.data.isSuffixOf s.data

/-- Python `s.lower()` (ASCII case mapping, which is all the source needs for
the `.url` extension test and ASCII search text). -/
def pyLower (s : String) : String := String.mk (s.data.map Char.toLower)

/-- Python `needle in hay` (substring containment) over character lists. -/
def containsSeg (needle : List Char) : List Char → Bool
  | [] => needle.isPrefixOf []
  | c :: cs => needle.isPrefixOf (c :: cs) || containsSeg needle cs

/-- Python `needle in hay` for strings. -/
def pyContains (needle hay : String) : Bool := containsSeg needle.data hay.data

/-- `line.strip().split('=')[1]` from `extract_url_from_shortcut`: the value
taken from a line that starts with `URL=`. Because the split is on every `=`
and index 1 is taken, this is the segment between the first and the second
`=` of the stripped line. -/
def urlOfLine (line : String) : String := (pySplit '=' (pyStrip line)).getD 1 ""

/-- The loop of `extract_url_from_shortcut`: return on the first line that
starts with `URL=`, otherwise fall through to `None`. -/
def extractFromLines : List String → Option String
  | [] => none
  | l :: ls => if pyStartsWith "URL=" l then some (urlOfLine l) else extractFromLines ls

/-- `extract_url_from_shortcut`, pure part: parse contents that were read
successfully. -/
def extract_url_from_shortcut (content : String) : Option String :=
  extractFromLines (pyFileLines content)

/-- One entry of `os.listdir(folder)` as seen by `import_links`: its name,
whether `os.path.isfile` holds for it, and the outcome of opening and reading
it (`none` means the read raises an exception). -/
structure FileEntry where
  name : String
  isFile : Bool
  read : Option String
deriving DecidableEq

/-- `os.path.isfile(file_path) and file.lower().endswith('.url')`. -/
def isUrlFile (f : FileEntry) : Bool := f.isFile && pyEndsWith ".url" (pyLower f.name)

/-- A call `extract_url_from_shortcut(file_path)` including its exception
handler: a failing read shows exactly one error dialog (counted in the second
component) and returns `None`; a successful read parses the contents. -/
def extractFromFile (f : FileEntry) : Option String × Nat :=
  match f.read with
  | some content => (extract_url_from_shortcut content, 0)
  | none => (none, 1)

/-- The scanning loop of `import_links`: the collected links (in directory
order; `if link:` keeps only non-`None`, nonempty results) together with the
number of error dialogs shown. Entries that are not regular files or do not
end in `.url` (case-insensitively) are not opened at all. -/
def scanFiles : List FileEntry → List String × Nat
  | [] => ([], 0)
  | f :: fs =>
    let rest := scanFiles fs
    if isUrlFile f then
      match extractFromFile f with
      | (some link, e) =>
        if link = "" then (rest.1, e + rest.2) else (link :: rest.1, e + rest.2)
      | (none, e) => (rest.1, e + rest.2)
    else rest

/-- The links collected by the scanning loop. -/
def rawLinks (files : List FileEntry) : List String := (scanFiles files).1

/-- The number of per-file error dialogs shown by the scanning loop. -/
def errCount (files : List FileEntry) : Nat := (scanFiles files).2

/-- `sorted(set(links))`: the distinct links in ascending lexicographic
order (Lean's `String` linear order, which compares code points like
Python's default string ordering). -/
def sortedSet (l : List String) : List String := l.toFinset.sort (· ≤ ·)

/-- The two link panels (`layout1` / `layout2` in the source). -/
inductive Slot where
  | one
  | two
deriving DecidableEq

/-- The link/folder state of the application: `self.links1`, `self.links2`,
`self.folder1`, `self.folder2`. -/
structure LinkOpenerApp where
  links1 : List String
  links2 : List String
  folder1 : String
  folder2 : String
deriving DecidableEq

/-- The state set by `__init__` just before `load_config` runs: empty lists,
empty folder strings. -/
def initialState : LinkOpenerApp := ⟨[], [], "", ""⟩

/-- The `links` list of a slot. -/
def slotLinks (st : LinkOpenerApp) : Slot → List String
  | .one => st.links1
  | .two => st.links2

/-- The source folder of a slot. -/
def slotFolder (st : LinkOpenerApp) : Slot → String
  | .one => st.folder1
  | .two => st.folder2

/-- The opposite slot. -/
def otherSlot : Slot → Slot
  | .one => .two
  | .two => .one

/-- `import_links`: `folder` is the directory chosen in the dialog (the empty
string when the user cancelled, in which case the body is skipped), `files`
the entries of `os.listdir(folder)`. Returns the new state and the number of
error dialogs shown during the scan. -/
def import_links (st : LinkOpenerApp) (slot : Slot) (folder : String)
    (files : List FileEntry) : LinkOpenerApp × Nat :=
  if folder = "" then (st, 0)
  else
    let scanned := scanFiles files
    let links := sortedSet scanned.1
    match slot with
    | .one => ({ st with links1 := links, folder1 := folder }, scanned.2)
    | .two => ({ st with links2 := links, folder2 := folder }, scanned.2)

/-- `filter_links`: the list computed from a slot's links and the search text
and displayed in the widget (slot state itself is only read). -/
def filter_links (links : List String) (search_text : String) : List String :=
  links.filter (fun link => pyContains (pyLower search_text) (pyLower link))

/-- The four optional keys of `config.json` as consumed by `config.get`. -/
structure ConfigDoc where
  links1 : Option (List String)
  links2 : Option (List String)
  folder1 : Option String
  folder2 : Option String
deriving DecidableEq

/-- The backing configuration file: missing, present but not valid JSON, or a
valid JSON object. -/
inductive ConfigStore where
  | absent
  | invalid
  | valid (doc : ConfigDoc)
deriving DecidableEq

/-- The exception raised by `json.load` on malformed input. -/
inductive PyError where
  | jsonDecodeError
deriving DecidableEq

/-- `load_config`: the state after the call together with the exception, if
any, that propagates out of it. When the file is missing the body is skipped;
when `json.load` fails it raises before any field assignment, so the state is
the caller's unchanged; otherwise each field is `config.get(key, default)`
with no re-sorting or deduplication. -/
def load_config (st : LinkOpenerApp) (store : ConfigStore) :
    LinkOpenerApp × Option PyError :=
  match store with
  | .absent => (st, none)
  | .invalid => (st, some .jsonDecodeError)
  | .valid d =>
    (⟨d.links1.getD [], d.links2.getD [], d.folder1.getD "", d.folder2.getD ""⟩, none)

/-- `save_config`: the JSON object written over the backing file. -/
def save_config (st : LinkOpenerApp) : ConfigDoc :=
  ⟨some st.links1, some st.links2, some st.folder1, some st.folder2⟩

/-- The spec's invariant on a slot's `links`: no duplicates, ascending
order. -/
def linksInvariant (l : List String) : Prop := l.Nodup ∧ l.Sorted (· ≤ ·)

/-! ### Helper lemmas about the parser primitives -/

theorem extractFromLines_append_of_not_url (pre ls : List String)
    (hpre : ∀ l ∈ pre, pyStartsWith "URL=" l = false) :
    extractFromLines (pre ++ ls) = extractFromLines ls := by
  induction pre with
  | nil => rfl
  | cons p ps ih =>
    have hp := hpre p (List.mem_cons_self p ps)
    simp only [List.cons_append, extractFromLines, hp, Bool.false_eq_true, if_false]
    exact ih fun l hl => hpre l (List.mem_cons_of_mem p hl)

theorem splitOnChar_ne_nil (sep : Char) : ∀ l : List Char, splitOnChar sep l ≠ []
  | [] => by simp [splitOnChar]
  | c :: cs => by
    simp only [splitOnChar]
    by_cases h : c = sep
    · simp [h]
    · simp only [h, if_false]
      cases hs : splitOnChar sep cs <;> simp

theorem splitOnChar_headD (sep : Char) : ∀ l : List Char,
    (splitOnChar sep l).getD 0 [] = l.takeWhile (fun c => c != sep)
  | [] => rfl
  | c :: cs => by
    have ih := splitOnChar_headD sep cs
    simp only [splitOnChar, List.takeWhile_cons]
    by_cases h : c = sep
    · simp [h]
    · have hb : (c != sep) = true := by simp [h]
      simp only [h, if_false, hb, if_true]
      cases hs : splitOnChar sep cs with
      | nil => exact absurd hs (splitOnChar_ne_nil sep cs)
      | cons seg segs =>
        rw [hs] at ih
        simp only [List.getD_cons_zero] at ih ⊢
        rw [ih]

theorem splitOnChar_url (v : List Char) :
    splitOnChar '=' ('U' :: 'R' :: 'L' :: '=' :: v) =
      ['U', 'R', 'L'] :: splitOnChar '=' v := by
  have h4 : splitOnChar '=' ('=' :: v) = [] :: splitOnChar '=' v := by
    simp [splitOnChar]
  have h3 : splitOnChar '=' ('L' :: '=' :: v) = ['L'] :: splitOnChar '=' v := by
    simp [splitOnChar, h4]
  have h2 : splitOnChar '=' ('R' :: 'L' :: '=' :: v) = ['R', 'L'] :: splitOnChar '=' v := by
    simp [splitOnChar, h3]
  simp [splitOnChar, h2]

theorem urlOfLine_of_strip (line v : String) (hv : pyStrip line = "URL=" ++ v) :
    urlOfLine line = String.mk (v.data.takeWhile (fun c => c != '=')) := by
  have hdata : ("URL=" ++ v).data = 'U' :: 'R' :: 'L' :: '=' :: v.data := by
    rw [String.data_append]; rfl
  rw [urlOfLine, hv]
  unfold pySplit
  rw [hdata, splitOnChar_url]
  have ih := splitOnChar_headD '=' v.data
  cases hs : splitOnChar '=' v.data with
  | nil => exact absurd hs (splitOnChar_ne_nil '=' v.data)
  | cons seg segs =>
    rw [hs] at ih
    simp only [List.getD_cons_zero] at ih
    simp [List.getD, ih]

theorem containsSeg_nil_left (l : List Char) : containsSeg [] l = true := by
  cases l <;> simp [containsSeg, List.isPrefixOf]

theorem containsSeg_iff (needle : List Char) : ∀ hay : List Char,
    containsSeg needle hay = true ↔ needle <:+: hay
  | [] => by
    simp [containsSeg, List.isPrefixOf_iff_prefix]
  | c :: cs => by
    simp [containsSeg, List.isPrefixOf_iff_prefix, List.infix_cons_iff,
      containsSeg_iff needle cs]

/-! ### Helper lemmas about the import scan -/

theorem scanFiles_append (xs ys : List FileEntry) :
    scanFiles (xs ++ ys) =
      ((scanFiles xs).1 ++ (scanFiles ys).1, (scanFiles xs).2 + (scanFiles ys).2) := by
  induction xs with
  | nil => simp [scanFiles]
  | cons f fs ih =>
    simp only [List.cons_append, scanFiles]
    by_cases hf : isUrlFile f
    · simp only [hf, if_true]
      cases hef : extractFromFile f with
      | mk lk e =>
        cases lk with
        | none => simp [ih, Nat.add_assoc]
        | some l =>
          by_cases hl : l = "" <;> simp [hl, ih, Nat.add_assoc]
    · simp [hf, ih]

theorem scanFiles_skip (pre post : List FileEntry) (f : FileEntry)
    (hf : isUrlFile f = false) :
    scanFiles (pre ++ f :: post) = scanFiles (pre ++ post) := by
  rw [scanFiles_append, scanFiles_append]
  have h : scanFiles (f :: post) = scanFiles post := by
    simp [scanFiles, hf]
  rw [h]

theorem scanFiles_bad_read (pre post : List FileEntry) (bad : FileEntry)
    (hurl : isUrlFile bad = true) (hread : bad.read = none) :
    (scanFiles (pre ++ bad :: post)).1 = (scanFiles (pre ++ post)).1 ∧
    (scanFiles (pre ++ bad :: post)).2 = (scanFiles (pre ++ post)).2 + 1 := by
  have h : scanFiles (bad :: post) = ((scanFiles post).1, 1 + (scanFiles post).2) := by
    simp [scanFiles, extractFromFile, hurl, hread]
  rw [scanFiles_append, scanFiles_append, h]
  exact ⟨rfl, by simp; omega⟩

theorem errCount_countP : ∀ files : List FileEntry,
    errCount files = files.countP (fun f => isUrlFile f && f.read.isNone)
  | [] => rfl
  | f :: fs => by
    have ih := errCount_countP fs
    simp only [errCount, scanFiles, List.countP_cons] at ih ⊢
    by_cases hf : isUrlFile f
    · cases hr : f.read with
      | none => simp [extractFromFile, hf, hr, ih, Nat.add_comm]
      | some c =>
        cases he : extract_url_from_shortcut c with
        | none => simp [extractFromFile, hf, hr, he, ih]
        | some l => by_cases hl : l = "" <;> simp [extractFromFile, hf, hr, he, hl, ih]
    · simp [hf, ih]

/-! ### Claim theorems -/

/-- Claim C1, counterexample: the claim predicts that for a line whose value
contains `=`, everything after the first `=` is returned; on the content
`URL=http://a.com?x=1` the code returns `http://a.com?x`, not the claimed
`http://a.com?x=1`. -/
theorem C1_counterexample :
    extract_url_from_shortcut "URL=http://a.com?x=1" = some "http://a.com?x" ∧
    some ("http://a.com?x" : String) ≠ some ("http://a.com?x=1" : String) :=
  ⟨by decide, by decide⟩

/-- Claim C1, amended: for the first line beginning with `URL=`, the parser
returns the text after the first `=` and before the second `=` of the
whitespace-stripped line (the entire remainder only when the value contains
no further `=`). -/
theorem C1_amended_value_between_equals (c : String) (pre : List String)
    (line : String) (post : List String) (v : String)
    (hsplit : pyFileLines c = pre ++ line :: post)
    (hpre : ∀ l ∈ pre, pyStartsWith "URL=" l = false)
    (hline : pyStartsWith "URL=" line = true)
    (hv : pyStrip line = "URL=" ++ v) :
    extract_url_from_shortcut c =
      some (String.mk (v.data.takeWhile (fun ch => ch != '='))) := by
  have h1 : extract_url_from_shortcut c = extractFromLines (line :: post) := by
    rw [extract_url_from_shortcut, hsplit, extractFromLines_append_of_not_url pre _ hpre]
  rw [h1]
  simp [extractFromLines, hline, urlOfLine_of_strip line v hv]

/-- Witness for the amended claim C1 at the content `URL=a=b\n`. -/
theorem C1_amended_value_between_equals_witness :
    pyFileLines "URL=a=b\n" = [] ++ "URL=a=b" :: [""] ∧
    pyStartsWith "URL=" "URL=a=b" = true ∧
    pyStrip "URL=a=b" = "URL=" ++ "a=b" ∧
    extract_url_from_shortcut "URL=a=b\n" =
      some (String.mk (("a=b" : String).data.takeWhile (fun ch => ch != '='))) :=
  ⟨by decide, by decide, by decide,
    C1_amended_value_between_equals "URL=a=b\n" [] "URL=a=b" [""] "a=b" (by decide)
      (by simp) (by decide) (by decide)⟩

/-- Claim C2, counterexample: `load_config` installs the stored list verbatim,
so loading a configuration whose `links1` is `["b", "a", "a"]` leaves slot 1
with a list that is neither duplicate-free nor sorted. -/
theorem C2_counterexample :
    (load_config initialState
        (ConfigStore.valid ⟨some ["b", "a", "a"], none, none, none⟩)).1.links1 =
      ["b", "a", "a"] ∧
    ¬ linksInvariant ["b", "a", "a"] :=
  ⟨rfl, fun h => absurd h.1 (by decide)⟩

/-- Claim C2, amended: the no-duplicates / ascending-order invariant holds for
the target slot after every `import_links`, while `load_config` restores the
stored lists verbatim (no re-sorting, no deduplication), so after a load the
invariant holds only if the stored lists already satisfied it. -/
theorem C2_amended_invariant (st : LinkOpenerApp) (slot : Slot) (folder : String)
    (files : List FileEntry) (h : folder ≠ "") :
    linksInvariant (slotLinks (import_links st slot folder files).1 slot) ∧
    (∀ d : ConfigDoc,
      (load_config st (ConfigStore.valid d)).1.links1 = d.links1.getD [] ∧
      (load_config st (ConfigStore.valid d)).1.links2 = d.links2.getD []) := by
  constructor
  · have hs : slotLinks (import_links st slot folder files).1 slot =
        sortedSet (rawLinks files) := by
      cases slot <;> simp [import_links, h, slotLinks, rawLinks]
    rw [hs]
    exact ⟨Finset.sort_nodup _ _, Finset.sort_sorted _ _⟩
  · intro d
    exact ⟨rfl, rfl⟩

/-- Witness for the amended claim C2 at a concrete import. -/
theorem C2_amended_invariant_witness :
    ("/tmp" : String) ≠ "" ∧
    (linksInvariant (slotLinks (import_links initialState Slot.one "/tmp" []).1 Slot.one) ∧
      (∀ d : ConfigDoc,
        (load_config initialState (ConfigStore.valid d)).1.links1 = d.links1.getD [] ∧
        (load_config initialState (ConfigStore.valid d)).1.links2 = d.links2.getD [])) :=
  ⟨by decide, C2_amended_invariant initialState Slot.one "/tmp" [] (by decide)⟩

/-- Claim C3: a non-cancelled import stores exactly the distinct extracted
non-empty URLs, strictly ascending (hence duplicate-free), with length the
number of distinct URLs; entries that are not `.url` regular files contribute
nothing; the order is lexicographic on the character lists. -/
theorem C3_import_dedup_sorted (st : LinkOpenerApp) (slot : Slot) (folder : String)
    (files : List FileEntry) (h : folder ≠ "") :
    slotLinks (import_links st slot folder files).1 slot = sortedSet (rawLinks files) ∧
    List.Sorted (· < ·) (sortedSet (rawLinks files)) ∧
    (sortedSet (rawLinks files)).toFinset = (rawLinks files).toFinset ∧
    (sortedSet (rawLinks files)).length = (rawLinks files).toFinset.card ∧
    (∀ pre post (f : FileEntry), isUrlFile f = false →
      rawLinks (pre ++ f :: post) = rawLinks (pre ++ post)) ∧
    (∀ a b : String, a < b ↔ a.data < b.data) := by
  refine ⟨?_, Finset.sort_sorted_lt _, Finset.sort_toFinset _ _,
    Finset.length_sort _, ?_, fun a b => String.lt_iff_toList_lt⟩
  · cases slot <;> simp [import_links, h, slotLinks, rawLinks]
  · intro pre post f hf
    unfold rawLinks
    rw [scanFiles_skip pre post f hf]

/-- Witness for claim C3 at the spec's example folder (three `.url` files,
one duplicate URL, one `.txt` file). -/
theorem C3_import_dedup_sorted_witness :
    ("/links" : String) ≠ "" ∧
    (slotLinks (import_links initialState Slot.one "/links"
        [⟨"a.url", true, some "URL=http://b.com"⟩,
         ⟨"b.url", true, some "URL=http://a.com"⟩,
         ⟨"c.url", true, some "URL=http://a.com"⟩,
         ⟨"d.txt", true, some "URL=http://c.com"⟩]).1 Slot.one =
      sortedSet (rawLinks
        [⟨"a.url", true, some "URL=http://b.com"⟩,
         ⟨"b.url", true, some "URL=http://a.com"⟩,
         ⟨"c.url", true, some "URL=http://a.com"⟩,
         ⟨"d.txt", true, some "URL=http://c.com"⟩]) ∧
      List.Sorted (· < ·) (sortedSet (rawLinks
        [⟨"a.url", true, some "URL=http://b.com"⟩,
         ⟨"b.url", true, some "URL=http://a.com"⟩,
         ⟨"c.url", true, some "URL=http://a.com"⟩,
         ⟨"d.txt", true, some "URL=http://c.com"⟩])) ∧
      (sortedSet (rawLinks
        [⟨"a.url", true, some "URL=http://b.com"⟩,
         ⟨"b.url", true, some "URL=http://a.com"⟩,
         ⟨"c.url", true, some "URL=http://a.com"⟩,
         ⟨"d.txt", true, some "URL=http://c.com"⟩])).toFinset = (rawLinks
        [⟨"a.url", true, some "URL=http://b.com"⟩,
         ⟨"b.url", true, some "URL=http://a.com"⟩,
         ⟨"c.url", true, some "URL=http://a.com"⟩,
         ⟨"d.txt", true, some "URL=http://c.com"⟩]).toFinset ∧
      (sortedSet (rawLinks
        [⟨"a.url", true, some "URL=http://b.com"⟩,
         ⟨"b.url", true, some "URL=http://a.com"⟩,
         ⟨"c.url", true, some "URL=http://a.com"⟩,
         ⟨"d.txt", true, some "URL=http://c.com"⟩])).length = (rawLinks
        [⟨"a.url", true, some "URL=http://b.com"⟩,
         ⟨"b.url", true, some "URL=http://a.com"⟩,
         ⟨"c.url", true, some "URL=http://a.com"⟩,
         ⟨"d.txt", true, some "URL=http://c.com"⟩]).toFinset.card ∧
      (∀ pre post (f : FileEntry), isUrlFile f = false →
        rawLinks (pre ++ f :: post) = rawLinks (pre ++ post)) ∧
      (∀ a b : String, a < b ↔ a.data < b.data)) :=
  ⟨by decide, C3_import_dedup_sorted initialState Slot.one "/links" _ (by decide)⟩

/-- Claim C4: an unreadable `.url` file contributes no link, adds exactly one
reported file-level error, and the remaining files before and after it are
still processed; in general the error count is exactly the number of
unreadable `.url` entries. -/
theorem C4_unreadable_file_skipped (pre post : List FileEntry) (bad : FileEntry)
    (hurl : isUrlFile bad = true) (hread : bad.read = none) :
    rawLinks (pre ++ bad :: post) = rawLinks (pre ++ post) ∧
    errCount (pre ++ bad :: post) = errCount (pre ++ post) + 1 ∧
    (∀ fs : List FileEntry,
      errCount fs = fs.countP (fun f => isUrlFile f && f.read.isNone)) :=
  ⟨(scanFiles_bad_read pre post bad hurl hread).1,
    (scanFiles_bad_read pre post bad hurl hread).2,
    errCount_countP⟩

/-- Witness for claim C4: an import of five files with exactly one unreadable
one behaves like the import of the four readable files plus one error. -/
theorem C4_unreadable_file_skipped_witness :
    isUrlFile ⟨"c.url", true, none⟩ = true ∧
    FileEntry.read ⟨"c.url", true, none⟩ = none ∧
    (rawLinks ([⟨"a.url", true, some "URL=a"⟩, ⟨"b.url", true, some "URL=b"⟩] ++
        ⟨"c.url", true, none⟩ ::
          [⟨"d.url", true, some "URL=d"⟩, ⟨"e.url", true, some "URL=e"⟩]) =
      rawLinks ([⟨"a.url", true, some "URL=a"⟩, ⟨"b.url", true, some "URL=b"⟩] ++
        [⟨"d.url", true, some "URL=d"⟩, ⟨"e.url", true, some "URL=e"⟩]) ∧
    errCount ([⟨"a.url", true, some "URL=a"⟩, ⟨"b.url", true, some "URL=b"⟩] ++
        ⟨"c.url", true, none⟩ ::
          [⟨"d.url", true, some "URL=d"⟩, ⟨"e.url", true, some "URL=e"⟩]) =
      errCount ([⟨"a.url", true, some "URL=a"⟩, ⟨"b.url", true, some "URL=b"⟩] ++
        [⟨"d.url", true, some "URL=d"⟩, ⟨"e.url", true, some "URL=e"⟩]) + 1 ∧
    (∀ fs : List FileEntry,
      errCount fs = fs.countP (fun f => isUrlFile f && f.read.isNone))) :=
  ⟨by decide, rfl,
    C4_unreadable_file_skipped
      [⟨"a.url", true, some "URL=a"⟩, ⟨"b.url", true, some "URL=b"⟩]
      [⟨"d.url", true, some "URL=d"⟩, ⟨"e.url", true, some "URL=e"⟩]
      ⟨"c.url", true, none⟩ (by decide) rfl⟩

/-- Claim C5: `filter_links` is computed from the slot's links without
touching them; the empty search text returns the full list unchanged, and in
general the result is the order-preserving subsequence of exactly those links
containing the search text case-insensitively (substring containment of the
lowered search text in the lowered link). -/
theorem C5_filter_pure_subsequence (links : List String) (s : String) :
    filter_links links "" = links ∧
    (filter_links links s).Sublist links ∧
    (∀ x, x ∈ filter_links links s ↔
      x ∈ links ∧ pyContains (pyLower s) (pyLower x) = true) ∧
    (∀ needle hay : String, pyContains needle hay = true ↔ needle.data <:+: hay.data) := by
  refine ⟨?_, List.filter_sublist links, fun x => List.mem_filter,
    fun needle hay => containsSeg_iff needle.data hay.data⟩
  apply List.filter_eq_self.mpr
  intro a _
  exact containsSeg_nil_left (pyLower a).data

/-- Claim C6: saving and loading into a fresh instance reproduces both slots'
links and folders exactly; a missing backing file or missing keys leave the
empty defaults. -/
theorem C6_config_roundtrip (st : LinkOpenerApp) :
    load_config initialState (ConfigStore.valid (save_config st)) = (st, none) ∧
    load_config initialState ConfigStore.absent = (initialState, none) ∧
    (∀ s : LinkOpenerApp,
      load_config s (ConfigStore.valid ⟨none, none, none, none⟩) =
        (initialState, none)) :=
  ⟨rfl, rfl, fun _ => rfl⟩

/-- Claim C7: only the first line beginning with `URL=` determines the
result; the lines after it are ignored. -/
theorem C7_first_url_line_wins (c : String) (pre : List String) (line : String)
    (post : List String)
    (hsplit : pyFileLines c = pre ++ line :: post)
    (hpre : ∀ l ∈ pre, pyStartsWith "URL=" l = false)
    (hline : pyStartsWith "URL=" line = true) :
    extract_url_from_shortcut c = some (urlOfLine line) ∧
    extract_url_from_shortcut c = extractFromLines (pre ++ [line]) := by
  have h1 : extract_url_from_shortcut c = extractFromLines (line :: post) := by
    rw [extract_url_from_shortcut, hsplit, extractFromLines_append_of_not_url pre _ hpre]
  have h2 : extractFromLines (line :: post) = some (urlOfLine line) := by
    simp [extractFromLines, hline]
  have h3 : extractFromLines (pre ++ [line]) = some (urlOfLine line) := by
    rw [extractFromLines_append_of_not_url pre _ hpre]
    simp [extractFromLines, hline]
  rw [h1, h2, h3]
  exact ⟨rfl, rfl⟩

/-- Witness for claim C7 at a content with two `URL=` lines. -/
theorem C7_first_url_line_wins_witness :
    pyFileLines "URL=a\nURL=b" = [] ++ "URL=a" :: ["URL=b"] ∧
    pyStartsWith "URL=" "URL=a" = true ∧
    extract_url_from_shortcut "URL=a\nURL=b" = some (urlOfLine "URL=a") ∧
    extract_url_from_shortcut "URL=a\nURL=b" = extractFromLines ([] ++ ["URL=a"]) :=
  have h := C7_first_url_line_wins "URL=a\nURL=b" [] "URL=a" ["URL=b"] (by decide)
    (by simp) (by decide)
  ⟨by decide, by decide, h.1, h.2⟩

/-- Claim C8: a non-cancelled import on one slot fully replaces that slot's
links with the freshly computed list and sets its folder, while the other
slot's links and folder are unchanged. -/
theorem C8_import_frame (st : LinkOpenerApp) (slot : Slot) (folder : String)
    (files : List FileEntry) (h : folder ≠ "") :
    slotLinks (import_links st slot folder files).1 (otherSlot slot) =
      slotLinks st (otherSlot slot) ∧
    slotFolder (import_links st slot folder files).1 (otherSlot slot) =
      slotFolder st (otherSlot slot) ∧
    slotLinks (import_links st slot folder files).1 slot = sortedSet (rawLinks files) ∧
    slotFolder (import_links st slot folder files).1 slot = folder := by
  cases slot <;>
    simp [import_links, h, slotLinks, slotFolder, otherSlot, rawLinks]

/-- Witness for claim C8 at a state with both slots populated. -/
theorem C8_import_frame_witness :
    ("/new" : String) ≠ "" ∧
    (slotLinks (import_links ⟨["x"], ["y"], "/fx", "/fy"⟩ Slot.one "/new" []).1
        (otherSlot Slot.one) =
      slotLinks ⟨["x"], ["y"], "/fx", "/fy"⟩ (otherSlot Slot.one) ∧
    slotFolder (import_links ⟨["x"], ["y"], "/fx", "/fy"⟩ Slot.one "/new" []).1
        (otherSlot Slot.one) =
      slotFolder ⟨["x"], ["y"], "/fx", "/fy"⟩ (otherSlot Slot.one) ∧
    slotLinks (import_links ⟨["x"], ["y"], "/fx", "/fy"⟩ Slot.one "/new" []).1
        Slot.one = sortedSet (rawLinks []) ∧
    slotFolder (import_links ⟨["x"], ["y"], "/fx", "/fy"⟩ Slot.one "/new" []).1
        Slot.one = "/new") :=
  ⟨by decide, C8_import_frame ⟨["x"], ["y"], "/fx", "/fy"⟩ Slot.one "/new" [] (by decide)⟩

/-- Claim C9: a cancelled folder dialog (empty folder string) makes
`import_links` a no-op: the state is returned unchanged and no error dialog
is shown. -/
theorem C9_cancelled_import_noop (st : LinkOpenerApp) (slot : Slot)
    (files : List FileEntry) :
    import_links st slot "" files = (st, 0) := by
  simp [import_links]

/-- Claim C10: on a backing file that exists but is not valid JSON,
`load_config` lets the `json.load` exception propagate and performs no field
assignment, so the state is exactly the one before the call. -/
theorem C10_invalid_config_raises (st : LinkOpenerApp) :
    load_config st ConfigStore.invalid = (st, some PyError.jsonDecodeError) := rfl

end LinkManager
